import Mathlib

/-!
Verification of the pressure-field pipeline in
`backend/core/pressure_field.py` (the `solesense` repository).

Modelling conventions:
* Python floats are modelled as exact real numbers (`ℝ`); the float
  literals `0.35`, `0.65`, `1.2`, … are the corresponding exact decimals.
* A numpy array of shape `(rows,)` is modelled as a function `ℕ → ℝ`
  together with the explicit length `rows`; a 2-D array of shape
  `(rows, cols)` as `ℕ → ℕ → ℝ` with the explicit pair `rows, cols`
  (the source reads the pair back via `grid.shape`).  Indices `≥ rows`
  (resp. `≥ cols`) are out of range and never written by any stage.
* `np.power` with a real exponent is `Real.rpow`; on a negative base with
  a fractional exponent numpy yields NaN, which (like the spec) we treat
  as implementation-defined, so all power claims are about non-negative
  cells.
* Python's `int()` truncates a float toward zero; `pyInt` below models it.
-/

/-- Python `int(x)`: truncation of a real toward zero. -/
noncomputable def pyInt (x : ℝ) : ℤ :=
  if 0 ≤ x then ⌊x⌋ else -⌊-x⌋

/-- The parameter record consumed by `generate_pressure_field`, with the
three fields the source reads from the `params` dict. -/
structure Params where
  arch_bias : ℝ
  contact_capacity : ℝ
  stiffness_factor : ℝ

/-- `np.linspace(0, 1, n)` at index `i`: for `n ≥ 2` the value `i/(n-1)`
(numpy pins the final sample to the stop value, which for exact reals is
already `i/(n-1)` at `i = n-1`); for `n = 1` the single sample is the
start value `0`.  Indices `i ≥ n` are out of range (junk values). -/
noncomputable def linspace01 (n : ℕ) (i : ℕ) : ℝ :=
  if n ≤ 1 then 0 else (i : ℝ) / ((n : ℝ) - 1)

/-- `_base_longitudinal_profile`: heel-to-toe base pressure profile,
`1.2 - x` with `x = np.linspace(0, 1, rows)`. -/
noncomputable def base_longitudinal_profile (rows : ℕ) : ℕ → ℝ :=
  fun i => 1.2 - linspace01 rows i

/-- `int(0.35 * GRID_ROWS)` — start of the midfoot window.  The float
product is non-negative, so `int` truncation is the floor; computed here
over exact rationals. -/
def mid_start (rows : ℕ) : ℕ :=
  (⌊(0.35 : ℚ) * rows⌋).toNat

/-- `int(0.65 * GRID_ROWS)` — end of the midfoot window. -/
def mid_end (rows : ℕ) : ℕ :=
  (⌊(0.65 : ℚ) * rows⌋).toNat

/-- `_apply_arch_bias`: add `arch_bias` to the slice
`profile[mid_start:mid_end]` and leave all other entries unchanged
(the Python slice assignment touches exactly the indices
`mid_start ≤ i < mid_end`). -/
noncomputable def apply_arch_bias (rows : ℕ) (profile : ℕ → ℝ)
    (arch_bias : ℝ) : ℕ → ℝ :=
  fun i =>
    if mid_start rows ≤ i ∧ i < mid_end rows then profile i + arch_bias
    else profile i

/-- `_expand_to_grid`: `np.tile(profile.reshape(-1,1), (1, GRID_COLS))` —
every column of row `i` holds `profile[i]`.  The column count only fixes
the shape, which the function model carries separately. -/
noncomputable def expand_to_grid (profile : ℕ → ℝ) : ℕ → ℕ → ℝ :=
  fun i _j => profile i

/-- `_apply_contact_capacity`: `exponent = max(0.5, 1.5 - capacity)` and
`np.power(grid, exponent)` cell-wise. -/
noncomputable def apply_contact_capacity (grid : ℕ → ℕ → ℝ)
    (capacity : ℝ) : ℕ → ℕ → ℝ :=
  fun i j => Real.rpow (grid i j) (max 0.5 (1.5 - capacity))

/-- The neighbor list collected for cell `(i, j)` in one smoothing pass:
the cell itself, then the up/down/left/right neighbors that exist inside
`[0, rows) × [0, cols)` (no wraparound), in the source's append order. -/
noncomputable def neighbors (rows cols : ℕ) (grid : ℕ → ℕ → ℝ)
    (i j : ℕ) : List ℝ :=
  [grid i j]
    ++ (if 0 < i then [grid (i - 1) j] else [])
    ++ (if i < rows - 1 then [grid (i + 1) j] else [])
    ++ (if 0 < j then [grid i (j - 1)] else [])
    ++ (if j < cols - 1 then [grid i (j + 1)] else [])

/-- One smoothing pass: every in-range cell becomes
`sum(neighbors) / len(neighbors)`, all reads taken from the pre-pass
grid (the source writes into a fresh copy `new_grid` while reading only
`grid`); cells outside the shape are untouched (the copy keeps them). -/
noncomputable def smooth_pass (rows cols : ℕ) (grid : ℕ → ℕ → ℝ) :
    ℕ → ℕ → ℝ :=
  fun i j =>
    if i < rows ∧ j < cols then
      (neighbors rows cols grid i j).sum / (neighbors rows cols grid i j).length
    else grid i j

/-- `steps = int((1.0 - stiffness_factor) * iterations)`; a negative
truncated count runs `range(steps)` zero times, hence `Int.toNat`. -/
noncomputable def smooth_steps (stiffness_factor : ℝ) (iterations : ℕ) : ℕ :=
  (pyInt ((1.0 - stiffness_factor) * iterations)).toNat

/-- `_smooth_grid_bounded`: repeat the snapshot-averaging pass
`smooth_steps` times. -/
noncomputable def smooth_grid_bounded (rows cols : ℕ) (grid : ℕ → ℕ → ℝ)
    (stiffness_factor : ℝ) (iterations : ℕ) : ℕ → ℕ → ℝ :=
  (smooth_pass rows cols)^[smooth_steps stiffness_factor iterations] grid

/-- `generate_pressure_field`: the five-stage pipeline, with the grid
shape `(rows, cols)` supplied by the configuration constants and the
default smoothing budget `iterations = 3`. -/
noncomputable def generate_pressure_field (rows cols : ℕ) (p : Params) :
    ℕ → ℕ → ℝ :=
  smooth_grid_bounded rows cols
    (apply_contact_capacity
      (expand_to_grid (apply_arch_bias rows (base_longitudinal_profile rows) p.arch_bias))
      p.contact_capacity)
    p.stiffness_factor 3

/-- A `params` dict that may lack fields: each of the three keys the
source looks up is present (`some`) or missing (`none`). -/
structure ParamsDict where
  arch_bias : Option ℝ
  contact_capacity : Option ℝ
  stiffness_factor : Option ℝ

/-- The exceptions the pipeline can raise: `valueError` from numpy
(negative sample count in `linspace`, negative dimensions in `tile`) and
`keyError k` from a missing `params[k]` lookup. -/
inductive PyError where
  | valueError : PyError
  | keyError : String → PyError
deriving DecidableEq

/-- `generate_pressure_field` with the failure behaviour made explicit,
in the source's evaluation order: stage 1 `np.linspace(0, 1, rows)`
raises `ValueError` when `rows < 0` (`rows = 0` yields an empty array);
then `params["arch_bias"]` is read; stage 3 `np.tile` raises
`ValueError` when `cols < 0` (`cols = 0` yields an empty grid); then
`params["contact_capacity"]` and finally `params["stiffness_factor"]`
are read.  On success the resulting shape and grid are returned. -/
noncomputable def generate_pressure_field_checked (rows cols : ℤ)
    (p : ParamsDict) : Except PyError ((r : ℕ) × (c : ℕ) × (ℕ → ℕ → ℝ)) :=
  if rows < 0 then Except.error PyError.valueError
  else
    match p.arch_bias with
    | none => Except.error (PyError.keyError "arch_bias")
    | some ab =>
      if cols < 0 then Except.error PyError.valueError
      else
        match p.contact_capacity with
        | none => Except.error (PyError.keyError "contact_capacity")
        | some cc =>
          match p.stiffness_factor with
          | none => Except.error (PyError.keyError "stiffness_factor")
          | some sf =>
            Except.ok ⟨rows.toNat, cols.toNat,
              generate_pressure_field rows.toNat cols.toNat ⟨ab, cc, sf⟩⟩

/-- C5: for `rows > 1` the base profile is `1.2 - i/(rows-1)`, strictly
decreasing, with value `1.2` at index 0 and `0.2` at index `rows-1`;
for `rows = 1` the single entry is `1.2`. -/
theorem base_profile_spec (rows : ℕ) :
    (1 < rows →
      (∀ i, base_longitudinal_profile rows i = 1.2 - (i : ℝ) / ((rows : ℝ) - 1)) ∧
      (∀ i j, i < j → j < rows →
        base_longitudinal_profile rows j < base_longitudinal_profile rows i) ∧
      base_longitudinal_profile rows 0 = 1.2 ∧
      base_longitudinal_profile rows (rows - 1) = 0.2) ∧
    base_longitudinal_profile 1 0 = 1.2 := by
  constructor
  · intro hrows
    have hne : (1 : ℕ) < rows := hrows
    have hden : (0 : ℝ) < (rows : ℝ) - 1 := by
      have : (1 : ℝ) < (rows : ℝ) := by exact_mod_cast hrows
      linarith
    have hval : ∀ i, base_longitudinal_profile rows i
        = 1.2 - (i : ℝ) / ((rows : ℝ) - 1) := by
      intro i
      unfold base_longitudinal_profile linspace01
      rw [if_neg (by omega)]
    refine ⟨hval, ?_, ?_, ?_⟩
    · intro i j hij hj
      rw [hval i, hval j]
      have hlt : (i : ℝ) / ((rows : ℝ) - 1) < (j : ℝ) / ((rows : ℝ) - 1) :=
        div_lt_div_of_pos_right (by exact_mod_cast hij) hden
      linarith
    · rw [hval 0]
      norm_num
    · rw [hval (rows - 1)]
      have hcast : ((rows - 1 : ℕ) : ℝ) = (rows : ℝ) - 1 := by
        have : (1 : ℕ) ≤ rows := by omega
        push_cast [Nat.cast_sub this]
        ring
      rw [hcast, div_self (ne_of_gt hden)]
      norm_num
  · unfold base_longitudinal_profile linspace01
    norm_num

/-- C5 witness: the two sides instantiated at `rows = 10`, `i = 1 < j = 2`. -/
theorem base_profile_spec_witness :
    base_longitudinal_profile 10 2 < base_longitudinal_profile 10 1 :=
  ((base_profile_spec 10).1 (by norm_num)).2.1 1 2 (by norm_num) (by norm_num)

/-- C6: the arch-bias stage adds exactly `arch_bias` on the index window
`[mid_start rows, mid_end rows)`, leaves every index outside the window
unchanged (in particular the whole profile when the window is empty);
being a pointwise map on the same index type, it preserves the profile's
length `rows`. -/
theorem arch_bias_spec (rows : ℕ) (profile : ℕ → ℝ) (b : ℝ) :
    (∀ i, mid_start rows ≤ i → i < mid_end rows →
      apply_arch_bias rows profile b i = profile i + b) ∧
    (∀ i, ¬(mid_start rows ≤ i ∧ i < mid_end rows) →
      apply_arch_bias rows profile b i = profile i) ∧
    (mid_end rows ≤ mid_start rows →
      ∀ i, apply_arch_bias rows profile b i = profile i) := by
  refine ⟨?_, ?_, ?_⟩
  · intro i h1 h2
    unfold apply_arch_bias
    rw [if_pos ⟨h1, h2⟩]
  · intro i h
    unfold apply_arch_bias
    rw [if_neg h]
  · intro hwin i
    unfold apply_arch_bias
    rw [if_neg (by omega)]

/-- For the 10-row grid of the end-to-end example the midfoot window
starts at index `⌊0.35 · 10⌋ = 3`. -/
lemma mid_start_ten : mid_start 10 = 3 := by
  unfold mid_start
  norm_num
  rfl

/-- For the 10-row grid of the end-to-end example the midfoot window
ends at index `⌊0.65 · 10⌋ = 6`. -/
lemma mid_end_ten : mid_end 10 = 6 := by
  unfold mid_end
  norm_num
  rfl

/-- C6 witness: for `rows = 10` the window is `[3, 6)`; index 3 is
shifted by the bias and index 0 is untouched. -/
theorem arch_bias_spec_witness :
    apply_arch_bias 10 (fun i => (i : ℝ)) 2 3 = ((3 : ℕ) : ℝ) + 2 ∧
    apply_arch_bias 10 (fun i => (i : ℝ)) 2 0 = ((0 : ℕ) : ℝ) := by
  constructor
  · exact (arch_bias_spec 10 (fun i => (i : ℝ)) 2).1 3
      (by rw [mid_start_ten]) (by rw [mid_end_ten]; omega)
  · exact (arch_bias_spec 10 (fun i => (i : ℝ)) 2).2.1 0
      (by rw [mid_start_ten, mid_end_ten]; omega)

/-- C7: the capacity shaper raises every cell to
`max 0.5 (1.5 - contact_capacity)`; that exponent equals `0.5` exactly
when `contact_capacity ≥ 1`, and for a fixed capacity the transform is
monotone in each non-negative cell value. -/
theorem contact_capacity_spec (capacity : ℝ) (grid : ℕ → ℕ → ℝ) :
    (∀ i j, apply_contact_capacity grid capacity i j
      = Real.rpow (grid i j) (max 0.5 (1.5 - capacity))) ∧
    (max (0.5 : ℝ) (1.5 - capacity) = 0.5 ↔ 1 ≤ capacity) ∧
    (∀ grid' : ℕ → ℕ → ℝ, ∀ i j, 0 ≤ grid i j → grid i j ≤ grid' i j →
      apply_contact_capacity grid capacity i j
        ≤ apply_contact_capacity grid' capacity i j) := by
  refine ⟨fun i j => rfl, ?_, ?_⟩
  · constructor
    · intro h
      by_contra hc
      have : (0.5 : ℝ) < 1.5 - capacity := by linarith [not_le.mp hc]
      rw [max_eq_right this.le] at h
      linarith
    · intro h
      exact max_eq_left (by linarith)
  · intro grid' i j h0 hle
    unfold apply_contact_capacity
    exact Real.rpow_le_rpow h0 hle
      (le_trans (by norm_num) (le_max_left (0.5 : ℝ) (1.5 - capacity)))

/-- C7 witness: monotonicity applied to the constant grids 1 and 2 at
capacity 0.8. -/
theorem contact_capacity_spec_witness :
    apply_contact_capacity (fun _ _ => (1 : ℝ)) 0.8 0 0
      ≤ apply_contact_capacity (fun _ _ => (2 : ℝ)) 0.8 0 0 :=
  (contact_capacity_spec 0.8 (fun _ _ => (1 : ℝ))).2.2
    (fun _ _ => (2 : ℝ)) 0 0 (by norm_num) (by norm_num)

/-- Python truncation agrees with the floor on non-negative reals. -/
lemma pyInt_of_nonneg {x : ℝ} (h : 0 ≤ x) : pyInt x = ⌊x⌋ := by
  unfold pyInt
  rw [if_pos h]

/-- Python truncation of a non-positive real is non-positive. -/
lemma pyInt_nonpos {x : ℝ} (h : x ≤ 0) : pyInt x ≤ 0 := by
  unfold pyInt
  split_ifs with h0
  · have hx0 : x = 0 := le_antisymm h h0
    simp [hx0]
  · have : (0 : ℤ) ≤ ⌊-x⌋ := Int.floor_nonneg.mpr (by linarith)
    omega

/-- The truncated step count, with the `1.0 - s` factor multiplied out:
for `s ≤ 1` it is the floor of `(1 - s) · iterations`. -/
lemma smooth_steps_of_le_one {s : ℝ} (iter : ℕ) (h : s ≤ 1) :
    smooth_steps s iter = (⌊(1 - s) * (iter : ℝ)⌋).toNat := by
  unfold smooth_steps
  rw [pyInt_of_nonneg (by
    have : (0 : ℝ) ≤ (iter : ℝ) := Nat.cast_nonneg iter
    nlinarith)]
  norm_num

/-- For `s > 1` the truncated count is non-positive, so no pass runs. -/
lemma smooth_steps_of_one_lt {s : ℝ} (iter : ℕ) (h : 1 < s) :
    smooth_steps s iter = 0 := by
  unfold smooth_steps
  have hx : (1.0 - s) * (iter : ℝ) ≤ 0 := by
    have : (0 : ℝ) ≤ (iter : ℝ) := Nat.cast_nonneg iter
    nlinarith
  have := pyInt_nonpos hx
  omega

/-- C4: the smoother runs `⌊(1 − stiffness) · iterations⌋` passes for
`stiffness ≤ 1`; `stiffness = 1` leaves the grid unchanged;
`stiffness = 0` with the default budget 3 runs exactly three passes;
and any `stiffness > 1` (negative truncated count) also leaves the grid
unchanged rather than faulting. -/
theorem smoothing_steps_spec (rows cols : ℕ) (grid : ℕ → ℕ → ℝ)
    (s : ℝ) (iter : ℕ) :
    (s ≤ 1 → smooth_grid_bounded rows cols grid s iter
      = (smooth_pass rows cols)^[(⌊(1 - s) * (iter : ℝ)⌋).toNat] grid) ∧
    smooth_grid_bounded rows cols grid 1 iter = grid ∧
    smooth_grid_bounded rows cols grid 0 3
      = smooth_pass rows cols (smooth_pass rows cols (smooth_pass rows cols grid)) ∧
    (1 < s → smooth_grid_bounded rows cols grid s iter = grid) := by
  refine ⟨?_, ?_, ?_, ?_⟩
  · intro h
    unfold smooth_grid_bounded
    rw [smooth_steps_of_le_one iter h]
  · unfold smooth_grid_bounded
    rw [smooth_steps_of_le_one iter le_rfl]
    norm_num
  · unfold smooth_grid_bounded
    rw [smooth_steps_of_le_one 3 (by norm_num)]
    norm_num
    rw [show ((3 : ℤ).toNat = 3) from rfl]
    rw [Function.iterate_succ_apply', Function.iterate_succ_apply',
      Function.iterate_succ_apply', Function.iterate_zero_apply]
  · intro h
    unfold smooth_grid_bounded
    rw [smooth_steps_of_one_lt iter h]
    rfl

/-- C4 witness: a stiffness of 2 (> 1) leaves a concrete 1×1 grid
unchanged. -/
theorem smoothing_steps_spec_witness :
    smooth_grid_bounded 1 1 (fun _ _ => (0 : ℝ)) 2 3 = (fun _ _ => (0 : ℝ)) :=
  (smoothing_steps_spec 1 1 (fun _ _ => (0 : ℝ)) 2 3).2.2.2 (by norm_num)

/-- C10 counterexample: at `stiffness_factor = -0.1` with the default
budget of 3 iterations the smoother performs
`int(1.1 · 3) = int(3.3) = 3` passes — a negative stiffness whose pass
count does **not** exceed the nominal budget of 3. -/
theorem negative_stiffness_counterexample :
    (-(0.1 : ℝ)) < 0 ∧ smooth_steps (-(0.1 : ℝ)) 3 = 3 ∧
    ¬ 3 < smooth_steps (-(0.1 : ℝ)) 3 := by
  have h : smooth_steps (-(0.1 : ℝ)) 3 = 3 := by
    rw [smooth_steps_of_le_one 3 (by norm_num)]
    rw [show ⌊((1 : ℝ) - -(0.1)) * ((3 : ℕ) : ℝ)⌋ = 3 by push_cast; norm_num]
    rfl
  exact ⟨by norm_num, h, by omega⟩

/-- C10 (amended): for `stiffness_factor < 0` the smoother performs
`int((1 − stiffness) · iterations)` passes, which is at least the
nominal budget; the count strictly exceeds the budget exactly when
`stiffness · iterations ≤ −1` (e.g. stiffness −1 with 3 iterations
gives 6 passes) and stays within the budget when
`stiffness · iterations > −1`, in particular for all
`stiffness ≥ 0`. -/
theorem negative_stiffness_steps_spec (rows cols : ℕ) (g : ℕ → ℕ → ℝ)
    (s : ℝ) (iter : ℕ) :
    (s < 0 → smooth_grid_bounded rows cols g s iter
      = (smooth_pass rows cols)^[smooth_steps s iter] g) ∧
    (s < 0 → iter ≤ smooth_steps s iter) ∧
    (s * iter ≤ -1 → iter < smooth_steps s iter) ∧
    (-1 < s * iter → smooth_steps s iter ≤ iter) ∧
    smooth_steps (-1 : ℝ) 3 = 6 := by
  refine ⟨fun _ => rfl, ?_, ?_, ?_, ?_⟩
  · intro hs
    rw [smooth_steps_of_le_one iter (by linarith)]
    have hfl : (iter : ℤ) ≤ ⌊(1 - s) * (iter : ℝ)⌋ := by
      apply Int.le_floor.mpr
      push_cast
      nlinarith [Nat.cast_nonneg (α := ℝ) iter]
    omega
  · intro hmul
    have hs1 : s ≤ 1 := by
      by_contra hgt
      push_neg at hgt
      nlinarith [Nat.cast_nonneg (α := ℝ) iter]
    rw [smooth_steps_of_le_one iter hs1]
    have hfl : (iter : ℤ) + 1 ≤ ⌊(1 - s) * (iter : ℝ)⌋ := by
      apply Int.le_floor.mpr
      push_cast
      nlinarith
    omega
  · intro hmul
    rcases le_or_lt s 1 with hs1 | hs1
    · rw [smooth_steps_of_le_one iter hs1]
      have hfl : ⌊(1 - s) * (iter : ℝ)⌋ < (iter : ℤ) + 1 := by
        apply Int.floor_lt.mpr
        push_cast
        nlinarith
      omega
    · rw [smooth_steps_of_one_lt iter hs1]
      omega
  · rw [smooth_steps_of_le_one 3 (by norm_num)]
    rw [show ⌊((1 : ℝ) - (-1)) * ((3 : ℕ) : ℝ)⌋ = 6 by push_cast; norm_num]
    rfl

/-- C10 witness: stiffness −1 with the default budget: the theorem's
lower bound instantiated there gives at least 3 passes. -/
theorem negative_stiffness_steps_spec_witness :
    3 ≤ smooth_steps (-1 : ℝ) 3 :=
  (negative_stiffness_steps_spec 1 1 (fun _ _ => (0 : ℝ)) (-1) 3).2.1
    (by norm_num)

/-- The neighbor list holds the cell itself plus one entry per existing
orthogonal neighbor. -/
lemma neighbors_length (rows cols : ℕ) (g : ℕ → ℕ → ℝ) (i j : ℕ) :
    (neighbors rows cols g i j).length
      = 1 + (if 0 < i then 1 else 0) + (if i < rows - 1 then 1 else 0)
        + (if 0 < j then 1 else 0) + (if j < cols - 1 then 1 else 0) := by
  unfold neighbors
  split_ifs <;> simp

/-- Membership in a conditionally-present singleton list. -/
lemma mem_ite_singleton {c : Prop} [Decidable c] {x y : ℝ} :
    x ∈ (if c then [y] else ([] : List ℝ)) ↔ c ∧ x = y := by
  split_ifs with h <;> simp [h]

/-- Characterization of the values collected in the neighbor list. -/
lemma mem_neighbors {rows cols : ℕ} {g : ℕ → ℕ → ℝ} {i j : ℕ} {x : ℝ} :
    x ∈ neighbors rows cols g i j ↔
      x = g i j ∨ (0 < i ∧ x = g (i - 1) j) ∨ (i < rows - 1 ∧ x = g (i + 1) j)
        ∨ (0 < j ∧ x = g i (j - 1)) ∨ (j < cols - 1 ∧ x = g i (j + 1)) := by
  unfold neighbors
  simp [List.mem_append, mem_ite_singleton]

/-- C2: one smoothing pass takes, at every cell, the mean of the cell's
own snapshot value and the snapshot values of its existing orthogonal
neighbors: 5 values at an interior cell (shown by the explicit formula,
which reads only the pre-pass grid `g`), 3 at each corner, 4 at each
non-corner edge cell, with no wraparound; the cell itself is always
among the averaged values. -/
theorem smooth_pass_spec (rows cols : ℕ) (g : ℕ → ℕ → ℝ) :
    (∀ i j, 0 < i → i < rows - 1 → 0 < j → j < cols - 1 →
      smooth_pass rows cols g i j
        = (g i j + g (i - 1) j + g (i + 1) j + g i (j - 1) + g i (j + 1)) / 5) ∧
    (∀ i j, 2 ≤ rows → 2 ≤ cols → (i = 0 ∨ i = rows - 1) → (j = 0 ∨ j = cols - 1) →
      (neighbors rows cols g i j).length = 3 ∧
      smooth_pass rows cols g i j = (neighbors rows cols g i j).sum / 3) ∧
    (∀ i j, (((i = 0 ∨ i = rows - 1) ∧ 2 ≤ rows ∧ 0 < j ∧ j < cols - 1) ∨
        ((j = 0 ∨ j = cols - 1) ∧ 2 ≤ cols ∧ 0 < i ∧ i < rows - 1)) →
      (neighbors rows cols g i j).length = 4 ∧
      smooth_pass rows cols g i j = (neighbors rows cols g i j).sum / 4) ∧
    (∀ i j, g i j ∈ neighbors rows cols g i j) := by
  refine ⟨?_, ?_, ?_, ?_⟩
  · intro i j hi1 hi2 hj1 hj2
    have hin : i < rows ∧ j < cols := ⟨by omega, by omega⟩
    unfold smooth_pass
    rw [if_pos hin]
    unfold neighbors
    rw [if_pos hi1, if_pos hi2, if_pos hj1, if_pos hj2]
    simp only [List.append_assoc, List.singleton_append, List.cons_append,
      List.sum_cons, List.sum_nil, List.length_cons, List.length_nil,
      List.nil_append, List.sum_append, List.length_append]
    push_cast
    ring
  · intro i j hr hc hi hj
    have hlen : (neighbors rows cols g i j).length = 3 := by
      rw [neighbors_length]
      rcases hi with rfl | rfl <;> rcases hj with rfl | rfl <;>
        split_ifs <;> omega
    refine ⟨hlen, ?_⟩
    have hin : i < rows ∧ j < cols := by
      rcases hi with rfl | rfl <;> rcases hj with rfl | rfl <;> omega
    unfold smooth_pass
    rw [if_pos hin, hlen]
    norm_num
  · intro i j h
    have hlen : (neighbors rows cols g i j).length = 4 := by
      rw [neighbors_length]
      rcases h with ⟨hi, hr, hj1, hj2⟩ | ⟨hj, hc, hi1, hi2⟩ <;>
        [rcases hi with rfl | rfl; rcases hj with rfl | rfl] <;>
        split_ifs <;> omega
    refine ⟨hlen, ?_⟩
    have hin : i < rows ∧ j < cols := by
      rcases h with ⟨hi, hr, hj1, hj2⟩ | ⟨hj, hc, hi1, hi2⟩ <;>
        [rcases hi with rfl | rfl; rcases hj with rfl | rfl] <;> omega
    unfold smooth_pass
    rw [if_pos hin, hlen]
    norm_num
  · intro i j
    unfold neighbors
    simp

/-- A concrete 3×3 grid used to instantiate saved theorems. -/
noncomputable def exampleGrid : ℕ → ℕ → ℝ :=
  fun i j => (i : ℝ) + 2 * (j : ℝ)

/-- C2 witness: the interior formula at the center of a 3×3 grid. -/
theorem smooth_pass_spec_witness :
    smooth_pass 3 3 exampleGrid 1 1
      = (exampleGrid 1 1 + exampleGrid 0 1 + exampleGrid 2 1
          + exampleGrid 1 0 + exampleGrid 1 2) / 5 :=
  (smooth_pass_spec 3 3 exampleGrid).1 1 1 (by norm_num) (by norm_num)
    (by norm_num) (by norm_num)

/-- A lower bound on each list element bounds the sum from below. -/
lemma length_mul_le_sum (l : List ℝ) (lo : ℝ) (h : ∀ x ∈ l, lo ≤ x) :
    lo * l.length ≤ l.sum := by
  induction l with
  | nil => simp
  | cons a t ih =>
    have ha : lo ≤ a := h a (by simp)
    have ht : lo * t.length ≤ t.sum := ih (fun x hx => h x (by simp [hx]))
    simp only [List.sum_cons, List.length_cons]
    push_cast
    nlinarith

/-- An upper bound on each list element bounds the sum from above. -/
lemma sum_le_length_mul (l : List ℝ) (hi : ℝ) (h : ∀ x ∈ l, x ≤ hi) :
    l.sum ≤ hi * l.length := by
  induction l with
  | nil => simp
  | cons a t ih =>
    have ha : a ≤ hi := h a (by simp)
    have ht : t.sum ≤ hi * t.length := ih (fun x hx => h x (by simp [hx]))
    simp only [List.sum_cons, List.length_cons]
    push_cast
    nlinarith

/-- The mean of a nonempty list of values inside `[lo, hi]` stays
inside `[lo, hi]`. -/
lemma list_mean_mem_bounds (l : List ℝ) (lo hi : ℝ) (hne : l ≠ [])
    (h : ∀ x ∈ l, lo ≤ x ∧ x ≤ hi) :
    lo ≤ l.sum / l.length ∧ l.sum / l.length ≤ hi := by
  have hlen : (0 : ℝ) < l.length := by
    have : 0 < l.length := List.length_pos.mpr hne
    exact_mod_cast this
  constructor
  · rw [le_div_iff₀ hlen]
    exact length_mul_le_sum l lo (fun x hx => (h x hx).1)
  · rw [div_le_iff₀ hlen]
    exact sum_le_length_mul l hi (fun x hx => (h x hx).2)

/-- Every value collected for an in-range cell comes from an in-range
cell of the snapshot. -/
lemma mem_neighbors_in_range {rows cols : ℕ} {g : ℕ → ℕ → ℝ} {i j : ℕ}
    (hi : i < rows) (hj : j < cols) {x : ℝ}
    (hx : x ∈ neighbors rows cols g i j) :
    ∃ a b, a < rows ∧ b < cols ∧ x = g a b := by
  rcases mem_neighbors.mp hx with h | ⟨h1, h⟩ | ⟨h1, h⟩ | ⟨h1, h⟩ | ⟨h1, h⟩
  · exact ⟨i, j, hi, hj, h⟩
  · exact ⟨i - 1, j, by omega, hj, h⟩
  · exact ⟨i + 1, j, by omega, hj, h⟩
  · exact ⟨i, j - 1, hi, by omega, h⟩
  · exact ⟨i, j + 1, hi, by omega, h⟩

/-- One smoothing pass keeps every in-range cell inside any interval
`[lo, hi]` containing all in-range cells of the snapshot, and leaves
out-of-range cells untouched. -/
lemma smooth_pass_preserves_bounds {rows cols : ℕ} {g : ℕ → ℕ → ℝ}
    {lo hi : ℝ}
    (hb : ∀ i j, i < rows → j < cols → lo ≤ g i j ∧ g i j ≤ hi) :
    ∀ i j, i < rows → j < cols →
      lo ≤ smooth_pass rows cols g i j ∧ smooth_pass rows cols g i j ≤ hi := by
  intro i j hi hj
  unfold smooth_pass
  rw [if_pos ⟨hi, hj⟩]
  apply list_mean_mem_bounds
  · unfold neighbors
    simp
  · intro x hx
    obtain ⟨a, b, ha, hb', rfl⟩ := mem_neighbors_in_range hi hj hx
    exact hb a b ha hb'

/-- Iterating the pass any number of times keeps all in-range cells
inside `[lo, hi]`. -/
lemma smooth_iterate_preserves_bounds {rows cols : ℕ} {lo hi : ℝ} :
    ∀ (n : ℕ) (g : ℕ → ℕ → ℝ),
      (∀ i j, i < rows → j < cols → lo ≤ g i j ∧ g i j ≤ hi) →
      ∀ i j, i < rows → j < cols →
        lo ≤ (smooth_pass rows cols)^[n] g i j ∧
        (smooth_pass rows cols)^[n] g i j ≤ hi := by
  intro n
  induction n with
  | zero => intro g hb; simpa using hb
  | succ m ih =>
    intro g hb i j hi hj
    rw [Function.iterate_succ_apply]
    exact ih (smooth_pass rows cols g)
      (fun a b ha hb' => smooth_pass_preserves_bounds hb a b ha hb') i j hi hj

/-- The least cell value of a nonempty `(r+1) × (c+1)` grid. -/
noncomputable def gridMin (r c : ℕ) (g : ℕ → ℕ → ℝ) : ℝ :=
  Finset.min' (Finset.image (fun p : ℕ × ℕ => g p.1 p.2)
      (Finset.range (r + 1) ×ˢ Finset.range (c + 1)))
    (Finset.Nonempty.image ⟨(0, 0), by simp⟩ _)

/-- The greatest cell value of a nonempty `(r+1) × (c+1)` grid. -/
noncomputable def gridMax (r c : ℕ) (g : ℕ → ℕ → ℝ) : ℝ :=
  Finset.max' (Finset.image (fun p : ℕ × ℕ => g p.1 p.2)
      (Finset.range (r + 1) ×ˢ Finset.range (c + 1)))
    (Finset.Nonempty.image ⟨(0, 0), by simp⟩ _)

/-- Every in-range cell value lies between `gridMin` and `gridMax`. -/
lemma gridMin_le_cell_le_gridMax {r c : ℕ} (g : ℕ → ℕ → ℝ) {i j : ℕ}
    (hi : i < r + 1) (hj : j < c + 1) :
    gridMin r c g ≤ g i j ∧ g i j ≤ gridMax r c g := by
  have hmem : g i j ∈ Finset.image (fun p : ℕ × ℕ => g p.1 p.2)
      (Finset.range (r + 1) ×ˢ Finset.range (c + 1)) := by
    apply Finset.mem_image.mpr
    exact ⟨(i, j), by simp [Finset.mem_product, hi, hj], rfl⟩
  exact ⟨Finset.min'_le _ _ hmem, Finset.le_max' _ _ hmem⟩

/-- C3: smoothing is bound-preserving — after any number of passes
(hence after `_smooth_grid_bounded` with any stiffness and iteration
budget) every cell of a nonempty grid stays inside the closed interval
`[gridMin, gridMax]` spanned by the pre-smoothing cell values. -/
theorem smoothing_bound_preserving (r c : ℕ) (g : ℕ → ℕ → ℝ) :
    (∀ n i j, i < r + 1 → j < c + 1 →
      gridMin r c g ≤ (smooth_pass (r + 1) (c + 1))^[n] g i j ∧
      (smooth_pass (r + 1) (c + 1))^[n] g i j ≤ gridMax r c g) ∧
    (∀ (s : ℝ) (iter : ℕ) (i j : ℕ), i < r + 1 → j < c + 1 →
      gridMin r c g ≤ smooth_grid_bounded (r + 1) (c + 1) g s iter i j ∧
      smooth_grid_bounded (r + 1) (c + 1) g s iter i j ≤ gridMax r c g) := by
  have hbase : ∀ i j, i < r + 1 → j < c + 1 →
      gridMin r c g ≤ g i j ∧ g i j ≤ gridMax r c g :=
    fun i j hi hj => gridMin_le_cell_le_gridMax g hi hj
  constructor
  · intro n i j hi hj
    exact smooth_iterate_preserves_bounds n g hbase i j hi hj
  · intro s iter i j hi hj
    unfold smooth_grid_bounded
    exact smooth_iterate_preserves_bounds _ g hbase i j hi hj

/-- C3 witness: one pass on the concrete 3×3 grid keeps the center cell
between the grid's extreme values. -/
theorem smoothing_bound_preserving_witness :
    gridMin 2 2 exampleGrid ≤ (smooth_pass 3 3)^[1] exampleGrid 1 1 ∧
    (smooth_pass 3 3)^[1] exampleGrid 1 1 ≤ gridMax 2 2 exampleGrid :=
  (smoothing_bound_preserving 2 2 exampleGrid).1 1 1 1 (by norm_num)
    (by norm_num)

/-- C1: with `rows = 10`, `cols = 4` and parameters
`arch_bias = 0.1`, `contact_capacity = 0.8`, `stiffness_factor = 1.0`,
the pipeline output is exactly the composition of stages 1–4 (zero
smoothing steps), and every cell of row 0 equals `1.2 ^ 0.7`
(exponent `1.5 − 0.8 = 0.7`). -/
theorem end_to_end_example :
    generate_pressure_field 10 4 ⟨0.1, 0.8, 1.0⟩
      = apply_contact_capacity
          (expand_to_grid
            (apply_arch_bias 10 (base_longitudinal_profile 10) 0.1)) 0.8 ∧
    ∀ j, j < 4 → generate_pressure_field 10 4 ⟨0.1, 0.8, 1.0⟩ 0 j
      = Real.rpow 1.2 0.7 := by
  have hzero : smooth_steps (1.0 : ℝ) 3 = 0 := by
    rw [smooth_steps_of_le_one 3 (by norm_num)]
    rw [show ⌊((1 : ℝ) - 1.0) * ((3 : ℕ) : ℝ)⌋ = 0 by push_cast; norm_num]
    rfl
  have h1 : generate_pressure_field 10 4 ⟨0.1, 0.8, 1.0⟩
      = apply_contact_capacity
          (expand_to_grid
            (apply_arch_bias 10 (base_longitudinal_profile 10) 0.1)) 0.8 := by
    unfold generate_pressure_field smooth_grid_bounded
    rw [show (⟨0.1, 0.8, 1.0⟩ : Params).stiffness_factor = (1.0 : ℝ) from rfl,
      hzero]
    rfl
  refine ⟨h1, ?_⟩
  intro j hj
  rw [h1]
  unfold apply_contact_capacity expand_to_grid apply_arch_bias
  rw [if_neg (by rw [mid_start_ten]; omega)]
  unfold base_longitudinal_profile linspace01
  rw [if_neg (by omega)]
  rw [show (1.2 : ℝ) - ((0 : ℕ) : ℝ) / (((10 : ℕ) : ℝ) - 1) = 1.2 by
    push_cast; norm_num]
  rw [show max (0.5 : ℝ) (1.5 - 0.8) = 0.7 by norm_num]

/-- C1 witness: column 0 of row 0 of the example output is
`1.2 ^ 0.7`. -/
theorem end_to_end_example_witness :
    generate_pressure_field 10 4 ⟨0.1, 0.8, 1.0⟩ 0 0 = Real.rpow 1.2 0.7 :=
  end_to_end_example.2 0 (by norm_num)

/-- C9: the pipeline is deterministic — two calls with identical
dimensions and identical parameter records return identical grids. -/
theorem generate_deterministic (rows cols : ℕ) (p q : Params)
    (h : p = q) :
    generate_pressure_field rows cols p = generate_pressure_field rows cols q := by
  rw [h]

/-- C9 witness: two identical calls at the example input agree. -/
theorem generate_deterministic_witness :
    generate_pressure_field 10 4 ⟨0.1, 0.8, 1.0⟩
      = generate_pressure_field 10 4 ⟨0.1, 0.8, 1.0⟩ :=
  generate_deterministic 10 4 ⟨0.1, 0.8, 1.0⟩ ⟨0.1, 0.8, 1.0⟩ rfl

/-- C8 counterexample: a non-positive row count does **not** make the
call fail — with `rows = 0` (and all parameter fields present) the
pipeline completes and returns the degenerate empty `0 × 3` grid. -/
theorem zero_rows_no_failure :
    generate_pressure_field_checked 0 3 ⟨some 0.1, some 0.8, some 1.0⟩
      = Except.ok ⟨0, 3, generate_pressure_field 0 3 ⟨0.1, 0.8, 1.0⟩⟩ := by
  rfl

/-- C8 (amended): failures arise at the first operation that cannot
proceed, with no grid returned: a negative row count fails in stage 1
(`linspace` rejects a negative sample count), then a missing
`arch_bias` fails at its lookup, a negative column count fails in stage
3 (`tile` rejects negative dimensions), then missing
`contact_capacity` and `stiffness_factor` fail at their lookups; with
non-negative dimensions and all three fields present the call succeeds
(so a zero row or column count yields an empty grid, not a failure). -/
theorem generate_checked_failure_spec (rows cols : ℤ) (p : ParamsDict) :
    (rows < 0 →
      generate_pressure_field_checked rows cols p
        = Except.error PyError.valueError) ∧
    (0 ≤ rows → p.arch_bias = none →
      generate_pressure_field_checked rows cols p
        = Except.error (PyError.keyError "arch_bias")) ∧
    (∀ ab, 0 ≤ rows → p.arch_bias = some ab → cols < 0 →
      generate_pressure_field_checked rows cols p
        = Except.error PyError.valueError) ∧
    (∀ ab, 0 ≤ rows → 0 ≤ cols → p.arch_bias = some ab →
      p.contact_capacity = none →
      generate_pressure_field_checked rows cols p
        = Except.error (PyError.keyError "contact_capacity")) ∧
    (∀ ab cc, 0 ≤ rows → 0 ≤ cols → p.arch_bias = some ab →
      p.contact_capacity = some cc → p.stiffness_factor = none →
      generate_pressure_field_checked rows cols p
        = Except.error (PyError.keyError "stiffness_factor")) ∧
    (∀ ab cc sf, 0 ≤ rows → 0 ≤ cols → p = ⟨some ab, some cc, some sf⟩ →
      generate_pressure_field_checked rows cols p
        = Except.ok ⟨rows.toNat, cols.toNat,
            generate_pressure_field rows.toNat cols.toNat ⟨ab, cc, sf⟩⟩) := by
  refine ⟨?_, ?_, ?_, ?_, ?_, ?_⟩
  · intro h
    unfold generate_pressure_field_checked
    rw [if_pos h]
  · intro hr hnone
    simp only [generate_pressure_field_checked, hnone]
    rw [if_neg (by omega)]
  · intro ab hr hsome hc
    simp only [generate_pressure_field_checked, hsome]
    rw [if_neg (by omega), if_pos hc]
  · intro ab hr hc hsome hcc
    simp only [generate_pressure_field_checked, hsome, hcc]
    rw [if_neg (by omega), if_neg (by omega)]
  · intro ab cc hr hc hsome hcc hsf
    simp only [generate_pressure_field_checked, hsome, hcc, hsf]
    rw [if_neg (by omega), if_neg (by omega)]
  · intro ab cc sf hr hc hp
    subst hp
    simp only [generate_pressure_field_checked]
    rw [if_neg (by omega), if_neg (by omega)]

/-- C8 witness: a negative row count fails with the numpy error, and a
record missing `stiffness_factor` fails with that key's lookup error. -/
theorem generate_checked_failure_spec_witness :
    generate_pressure_field_checked (-1) 3 ⟨some 0.1, some 0.8, some 1.0⟩
      = Except.error PyError.valueError ∧
    generate_pressure_field_checked 10 4 ⟨some 0.1, some 0.8, none⟩
      = Except.error (PyError.keyError "stiffness_factor") := by
  constructor
  · exact (generate_checked_failure_spec (-1) 3
      ⟨some 0.1, some 0.8, some 1.0⟩).1 (by norm_num)
  · exact (generate_checked_failure_spec 10 4
      ⟨some 0.1, some 0.8, none⟩).2.2.2.2.1 0.1 0.8 (by norm_num)
      (by norm_num) rfl rfl rfl
